import Mathlib

/-
Shallow embedding of the iterative Q&A form state machine of the `tui`
package (type `IterativeFormModel` and its methods), the core of the
`pres` repository.  Go strings are embedded as Lean `String`
(`strings.TrimSpace` as `trimSpace`, `strings.ToLower` as `lowerStr`,
defined below; both agree with Go on ASCII input, which is all the
claims use).  Go `int` fields that can be compared against
`MaxIterations - 1` are embedded as `Int` so that the arithmetic matches
Go exactly; `currentIdx`, which is only ever zero or incremented, is a
`Nat`.  The `err error` field is embedded as `Option String` (nil ↦
`none`); the exact message text is irrelevant to every claim.
-/

namespace Tui

/-- Embedding of Go `strings.TrimSpace`: removes leading and trailing
whitespace characters.  Defined structurally over the character list so
that it evaluates inside the kernel; agrees with Go on ASCII input. -/
def trimSpace (s : String) : String :=
  ⟨((s.data.dropWhile Char.isWhitespace).reverse.dropWhile
      Char.isWhitespace).reverse⟩

/-- Embedding of Go `strings.ToLower`, structurally over the character
list; agrees with Go on ASCII input. -/
def lowerStr (s : String) : String :=
  ⟨s.data.map Char.toLower⟩

/-- Embedding of the Go byte-slice `s[:len(s)-1]` used for backspace; on
the ASCII inputs of the claims this is dropping the last character. -/
def dropLastChar (s : String) : String :=
  ⟨s.data.dropLast⟩

/-- Configuration controlling the iterative Q&A behavior (Go struct
`IterationConfig`). -/
structure IterationConfig where
  MaxIterations : Int
  IterationPrompt : String
  CompletionPrompt : String
deriving Repr, DecidableEq

/-- A question in an iterative session (Go struct `IterativeQuestion`). -/
structure IterativeQuestion where
  Question : String
  HelpText : String
  Iteration : Int
deriving Repr, DecidableEq

/-- The iterative Q&A form (Go struct `IterativeFormModel`). -/
structure IterativeFormModel where
  title : String
  config : IterationConfig
  questions : List IterativeQuestion
  responses : List String
  currentIdx : Nat
  iteration : Int
  input : String
  err : Option String
  done : Bool
  needsMore : Bool
  askingMore : Bool
deriving Repr, DecidableEq

/-- Go `NewIterativeForm`. -/
def NewIterativeForm (title : String) (config : IterationConfig) :
    IterativeFormModel :=
  { title := title
    config := config
    questions := []
    responses := []
    currentIdx := 0
    iteration := 0
    input := ""
    err := none
    done := false
    needsMore := false
    askingMore := false }

/-- Go method `AddQuestions`: appends questions from a new iteration. -/
def AddQuestions (m : IterativeFormModel) (qs : List IterativeQuestion) :
    IterativeFormModel :=
  { m with questions := m.questions ++ qs }

/-- Go method `handleEnter`: processes the enter key press.  The Go
continuation error message quotes the yes/no tokens; only the presence of
an error matters here, so the quotes are dropped from the text. -/
def handleEnter (m : IterativeFormModel) : IterativeFormModel :=
  let input := trimSpace m.input
  if m.askingMore then
    let lower := lowerStr input
    if lower = "yes" ∨ lower = "y" then
      { m with needsMore := true, askingMore := false, done := true }
    else if lower = "no" ∨ lower = "n" then
      { m with needsMore := false, askingMore := false, done := true }
    else
      { m with err := some "please answer yes or no", input := "" }
  else if input = "" then
    { m with err := some "please provide an answer" }
  else
    let m1 : IterativeFormModel :=
      { m with responses := m.responses ++ [input]
               err := none
               input := ""
               currentIdx := m.currentIdx + 1 }
    if m1.currentIdx ≥ m1.questions.length then
      if m1.iteration < m1.config.MaxIterations - 1 then
        { m1 with askingMore := true }
      else
        { m1 with done := true }
    else
      m1

/-- Go method `Update`, restricted to `tea.KeyMsg` (the only message kind
it reacts to), keyed by `msg.String()`.  Backspace in Go drops the last
byte; for the ASCII inputs of the claims this equals dropping the last
character. -/
def Update (m : IterativeFormModel) (s : String) : IterativeFormModel :=
  if s = "ctrl+c" ∨ s = "esc" then
    { m with done := true }
  else if s = "enter" then
    handleEnter m
  else if s = "backspace" then
    if m.input.length > 0 then { m with input := dropLastChar m.input } else m
  else
    { m with input := m.input ++ s }

/-- Go method `GetResponses`. -/
def GetResponses (m : IterativeFormModel) : List String :=
  m.responses

/-- Go method `GetResponsesForIteration`: walks the question list with its
index and keeps `responses[i]` whenever question `i` belongs to the given
iteration and `i < len(responses)`. -/
def GetResponsesForIteration (m : IterativeFormModel) (iteration : Int) :
    List String :=
  m.questions.enum.filterMap fun p =>
    if p.2.Iteration = iteration then m.responses.get? p.1 else none

/-- Go method `IsDone`. -/
def IsDone (m : IterativeFormModel) : Bool :=
  m.done && !m.needsMore

/-- Go method `NeedsMoreInfo`. -/
def NeedsMoreInfo (m : IterativeFormModel) : Bool :=
  m.needsMore

/-- Go method `NextIteration`: prepares for the next iteration. -/
def NextIteration (m : IterativeFormModel) : IterativeFormModel :=
  { m with iteration := m.iteration + 1
           askingMore := false
           needsMore := false
           done := false }

/-- Go method `GetCurrentIteration`. -/
def GetCurrentIteration (m : IterativeFormModel) : Int :=
  m.iteration

/-- Go helper `countQuestionsBeforeIteration`. -/
def countQuestionsBeforeIteration (questions : List IterativeQuestion)
    (iteration : Int) : Nat :=
  (questions.filter fun q => q.Iteration < iteration).length

/-- Go helper `countQuestionsInIteration`. -/
def countQuestionsInIteration (questions : List IterativeQuestion)
    (iteration : Int) : Nat :=
  (questions.filter fun q => q.Iteration = iteration).length

/-- External stimuli the form reacts to: one key event (by its
`msg.String()` name), a caller `AddQuestions` call, or a caller
`NextIteration` call. -/
inductive Event where
  | key : String → Event
  | addQuestions : List IterativeQuestion → Event
  | nextIteration : Event
deriving Repr, DecidableEq

/-- One step of the form under an external stimulus. -/
def step (m : IterativeFormModel) : Event → IterativeFormModel
  | .key s => Update m s
  | .addQuestions qs => AddQuestions m qs
  | .nextIteration => NextIteration m

/-- Runs a sequence of events from a state. -/
def run (m : IterativeFormModel) : List Event → IterativeFormModel
  | [] => m
  | e :: es => run (step m e) es

/-- Submits a list of answers one after the other: each submission places
the answer in the input buffer and presses enter. -/
def submitAnswers (m : IterativeFormModel) : List String → IterativeFormModel
  | [] => m
  | a :: as => submitAnswers (handleEnter { m with input := a }) as

/-- Sample question of round 0 used in concrete scenarios. -/
def qA : IterativeQuestion := ⟨"A?", "", 0⟩

/-- Second sample question of round 0. -/
def qB : IterativeQuestion := ⟨"B?", "", 0⟩

/-- Sample question of round 1. -/
def qC : IterativeQuestion := ⟨"C?", "", 1⟩

/-- Sample form state sitting mid-round on a non-blank buffer. -/
def mAnswering : IterativeFormModel :=
  { title := "t", config := ⟨2, "p", "q"⟩, questions := [qA, qB]
    responses := [], currentIdx := 0, iteration := 0, input := "  hi  "
    err := none, done := false, needsMore := false, askingMore := false }

/-- C6: for every form state, `NextIteration` increments the round index by
exactly one, clears the asking-continuation, completion and wants-more
flags, and leaves the response log, the question cursor, the question
list, the title and the configuration unchanged. -/
theorem next_iteration_frame (m : IterativeFormModel) :
    (NextIteration m).iteration = m.iteration + 1 ∧
    (NextIteration m).askingMore = false ∧
    (NextIteration m).done = false ∧
    (NextIteration m).needsMore = false ∧
    (NextIteration m).responses = m.responses ∧
    (NextIteration m).currentIdx = m.currentIdx ∧
    (NextIteration m).questions = m.questions ∧
    (NextIteration m).title = m.title ∧
    (NextIteration m).config = m.config := by
  simp [NextIteration]

/-- C7: in the answering state, submitting an answer that trims to empty
leaves the whole form unchanged except for the validation error: same
response log, cursor, round number, buffer, flags. -/
theorem empty_answer_noop (m : IterativeFormModel)
    (h1 : m.askingMore = false) (h2 : trimSpace m.input = "") :
    handleEnter m = { m with err := some "please provide an answer" } := by
  simp [handleEnter, h1, h2]

/-- Witness for C7 at a concrete whitespace-only submission. -/
theorem empty_answer_noop_witness :
    (handleEnter { mAnswering with input := "   " }).responses =
        mAnswering.responses ∧
    (handleEnter { mAnswering with input := "   " }).currentIdx =
        mAnswering.currentIdx ∧
    (handleEnter { mAnswering with input := "   " }).iteration =
        mAnswering.iteration ∧
    (handleEnter { mAnswering with input := "   " }).askingMore = false ∧
    (handleEnter { mAnswering with input := "   " }).done = false := by
  have h := empty_answer_noop { mAnswering with input := "   " } rfl (by decide)
  rw [h]
  exact ⟨rfl, rfl, rfl, rfl, rfl⟩

/-- C10: in the answering state, a submission whose buffer trims to empty
is rejected with no response stored, and an accepted submission stores
exactly the buffer with leading and trailing whitespace removed. -/
theorem answers_trimmed (m : IterativeFormModel) (h : m.askingMore = false) :
    (trimSpace m.input = "" → (handleEnter m).responses = m.responses) ∧
    (trimSpace m.input ≠ "" →
      (handleEnter m).responses = m.responses ++ [trimSpace m.input]) := by
  constructor
  · intro h2
    simp [handleEnter, h, h2]
  · intro h2
    simp only [handleEnter, h]
    simp only [Bool.false_eq_true, if_false, if_neg h2]
    split
    · split <;> rfl
    · rfl

/-- Witness for C10: the answer `"  hi  "` is stored as `"hi"`, and a
whitespace-only answer is not stored. -/
theorem answers_trimmed_witness :
    (handleEnter mAnswering).responses = [] ++ ["hi"] ∧
    (handleEnter { mAnswering with input := " " }).responses = [] := by
  constructor
  · have h := (answers_trimmed mAnswering rfl).2 (by decide)
    simpa using h
  · have h := (answers_trimmed { mAnswering with input := " " } rfl).1
      (by decide)
    simpa using h

/-- C8: with round budget 2 and round 0 holding two questions, answering
`"x"` then `"y"` reaches the continuation prompt; answering `"y"` there
gives a soft completion with wants-more true and responses
`["x", "y"]`; after the caller appends one round-1 question and calls
`NextIteration`, answering `"z"` (the leftover continuation keystroke in
the buffer is first erased with backspace, since the yes branch does not
clear the buffer) gives a hard completion with responses
`["x", "y", "z"]` and round-1 subset exactly `["z"]`. -/
theorem scenario_two_rounds :
    (run (NewIterativeForm "t" ⟨2, "p", "q"⟩)
        [.addQuestions [qA, qB], .key "x", .key "enter", .key "y",
         .key "enter"]).askingMore = true ∧
    (run (NewIterativeForm "t" ⟨2, "p", "q"⟩)
        [.addQuestions [qA, qB], .key "x", .key "enter", .key "y",
         .key "enter"]).done = false ∧
    NeedsMoreInfo (run (NewIterativeForm "t" ⟨2, "p", "q"⟩)
        [.addQuestions [qA, qB], .key "x", .key "enter", .key "y",
         .key "enter", .key "y", .key "enter"]) = true ∧
    (run (NewIterativeForm "t" ⟨2, "p", "q"⟩)
        [.addQuestions [qA, qB], .key "x", .key "enter", .key "y",
         .key "enter", .key "y", .key "enter"]).done = true ∧
    IsDone (run (NewIterativeForm "t" ⟨2, "p", "q"⟩)
        [.addQuestions [qA, qB], .key "x", .key "enter", .key "y",
         .key "enter", .key "y", .key "enter"]) = false ∧
    GetResponses (run (NewIterativeForm "t" ⟨2, "p", "q"⟩)
        [.addQuestions [qA, qB], .key "x", .key "enter", .key "y",
         .key "enter", .key "y", .key "enter"]) = ["x", "y"] ∧
    IsDone (run (NewIterativeForm "t" ⟨2, "p", "q"⟩)
        [.addQuestions [qA, qB], .key "x", .key "enter", .key "y",
         .key "enter", .key "y", .key "enter", .addQuestions [qC],
         .nextIteration, .key "backspace", .key "z", .key "enter"]) = true ∧
    NeedsMoreInfo (run (NewIterativeForm "t" ⟨2, "p", "q"⟩)
        [.addQuestions [qA, qB], .key "x", .key "enter", .key "y",
         .key "enter", .key "y", .key "enter", .addQuestions [qC],
         .nextIteration, .key "backspace", .key "z", .key "enter"]) =
      false ∧
    GetResponses (run (NewIterativeForm "t" ⟨2, "p", "q"⟩)
        [.addQuestions [qA, qB], .key "x", .key "enter", .key "y",
         .key "enter", .key "y", .key "enter", .addQuestions [qC],
         .nextIteration, .key "backspace", .key "z", .key "enter"]) =
      ["x", "y", "z"] ∧
    GetResponsesForIteration (run (NewIterativeForm "t" ⟨2, "p", "q"⟩)
        [.addQuestions [qA, qB], .key "x", .key "enter", .key "y",
         .key "enter", .key "y", .key "enter", .addQuestions [qC],
         .nextIteration, .key "backspace", .key "z", .key "enter"]) 1 =
      ["z"] := by
  decide

/-- Counterexample to C2 as stated: from a newly constructed form with no
questions, typing `"x"` and pressing enter appends a response anyway (the
length check in `handleEnter` runs only after the append), so the response
log becomes strictly longer than the question list. -/
theorem responses_exceed_questions_cex :
    ¬ ((run (NewIterativeForm "t" ⟨2, "p", "q"⟩)
          [.key "x", .key "enter"]).responses.length ≤
        (run (NewIterativeForm "t" ⟨2, "p", "q"⟩)
          [.key "x", .key "enter"]).questions.length) := by
  decide

/-- Counterexample to C3 as stated: a session cancelled with Esc at the
continuation prompt and a session normally hard-completed by answering
`"n"` there agree on every query operation (`GetResponses`, `IsDone`,
`NeedsMoreInfo`, `GetCurrentIteration`, and the per-round subsets, which
are functions of the shared question and response lists), so the caller
cannot observe a cancelled outcome distinct from normal hard completion:
the observable classification is two-way, not three-way. -/
theorem cancel_observation_cex :
    (run (NewIterativeForm "t" ⟨2, "p", "q"⟩)
        [.addQuestions [qA], .key "x", .key "enter"]).done = false ∧
    (run (NewIterativeForm "t" ⟨2, "p", "q"⟩)
        [.addQuestions [qA], .key "x", .key "enter", .key "esc"]).done =
      true ∧
    GetResponses (run (NewIterativeForm "t" ⟨2, "p", "q"⟩)
        [.addQuestions [qA], .key "x", .key "enter", .key "esc"]) =
      GetResponses (run (NewIterativeForm "t" ⟨2, "p", "q"⟩)
        [.addQuestions [qA], .key "x", .key "enter", .key "n",
         .key "enter"]) ∧
    IsDone (run (NewIterativeForm "t" ⟨2, "p", "q"⟩)
        [.addQuestions [qA], .key "x", .key "enter", .key "esc"]) = true ∧
    IsDone (run (NewIterativeForm "t" ⟨2, "p", "q"⟩)
        [.addQuestions [qA], .key "x", .key "enter", .key "n",
         .key "enter"]) = true ∧
    NeedsMoreInfo (run (NewIterativeForm "t" ⟨2, "p", "q"⟩)
        [.addQuestions [qA], .key "x", .key "enter", .key "esc"]) =
      false ∧
    NeedsMoreInfo (run (NewIterativeForm "t" ⟨2, "p", "q"⟩)
        [.addQuestions [qA], .key "x", .key "enter", .key "n",
         .key "enter"]) = false ∧
    GetCurrentIteration (run (NewIterativeForm "t" ⟨2, "p", "q"⟩)
        [.addQuestions [qA], .key "x", .key "enter", .key "esc"]) =
      GetCurrentIteration (run (NewIterativeForm "t" ⟨2, "p", "q"⟩)
        [.addQuestions [qA], .key "x", .key "enter", .key "n",
         .key "enter"]) ∧
    (run (NewIterativeForm "t" ⟨2, "p", "q"⟩)
        [.addQuestions [qA], .key "x", .key "enter", .key "esc"]).questions
      = (run (NewIterativeForm "t" ⟨2, "p", "q"⟩)
        [.addQuestions [qA], .key "x", .key "enter", .key "n",
         .key "enter"]).questions ∧
    (run (NewIterativeForm "t" ⟨2, "p", "q"⟩)
        [.addQuestions [qA], .key "x", .key "enter", .key "esc"]).responses
      = (run (NewIterativeForm "t" ⟨2, "p", "q"⟩)
        [.addQuestions [qA], .key "x", .key "enter", .key "n",
         .key "enter"]).responses := by
  decide

/-- Counterexample to C4 as stated: at the continuation prompt, submitting
the unrecognized input `"maybe"` does not leave the form state unchanged
except for the validation error — the input buffer, part of the form
state, is also cleared. -/
theorem continuation_clears_input_cex :
    (run (NewIterativeForm "t" ⟨2, "p", "q"⟩)
        [.addQuestions [qA], .key "x", .key "enter",
         .key "maybe"]).askingMore = true ∧
    (run (NewIterativeForm "t" ⟨2, "p", "q"⟩)
        [.addQuestions [qA], .key "x", .key "enter", .key "maybe"]).input =
      "maybe" ∧
    (run (NewIterativeForm "t" ⟨2, "p", "q"⟩)
        [.addQuestions [qA], .key "x", .key "enter", .key "maybe",
         .key "enter"]).input = "" ∧
    ¬ ((run (NewIterativeForm "t" ⟨2, "p", "q"⟩)
          [.addQuestions [qA], .key "x", .key "enter", .key "maybe",
           .key "enter"]).input =
        (run (NewIterativeForm "t" ⟨2, "p", "q"⟩)
          [.addQuestions [qA], .key "x", .key "enter",
           .key "maybe"]).input) := by
  decide

/-- C4 amended: at the continuation prompt, an input recognized
case-insensitively (after trimming) as yes/y sets wants-more true and
terminates; no/n sets wants-more false and terminates; exactly these
tokens are accepted, and every other input leaves the form unchanged
except that the validation error is set and the input buffer is cleared —
no retry counter exists in the state, so retries are unlimited. -/
theorem continuation_tokens (m : IterativeFormModel)
    (h : m.askingMore = true) :
    ((lowerStr (trimSpace m.input) = "yes" ∨
        lowerStr (trimSpace m.input) = "y") →
      handleEnter m =
        { m with needsMore := true, askingMore := false, done := true }) ∧
    ((lowerStr (trimSpace m.input) = "no" ∨
        lowerStr (trimSpace m.input) = "n") →
      handleEnter m =
        { m with needsMore := false, askingMore := false, done := true }) ∧
    (¬ (lowerStr (trimSpace m.input) = "yes" ∨
        lowerStr (trimSpace m.input) = "y") →
     ¬ (lowerStr (trimSpace m.input) = "no" ∨
        lowerStr (trimSpace m.input) = "n") →
      handleEnter m =
        { m with err := some "please answer yes or no", input := "" }) := by
  refine ⟨?_, ?_, ?_⟩
  · intro h2
    simp [handleEnter, h, h2]
  · intro h2
    have hyes : ¬ (lowerStr (trimSpace m.input) = "yes" ∨
        lowerStr (trimSpace m.input) = "y") := by
      rcases h2 with h2 | h2 <;> rw [h2] <;> decide
    simp [handleEnter, h, hyes, h2]
  · intro h2 h3
    simp [handleEnter, h, h2, h3]

/-- Witness for C4 amended: the input `" Y "` at the continuation prompt
is accepted as yes. -/
theorem continuation_tokens_witness :
    handleEnter { mAnswering with askingMore := true, input := " Y " } =
      { mAnswering with
        askingMore := false
        input := " Y "
        needsMore := true
        done := true } := by
  have h := (continuation_tokens
      { mAnswering with askingMore := true, input := " Y " } rfl).1
      (by decide)
  exact h

/-- Counterexample to C5 as stated: after round 0 of a budget-3 form is
answered and continued with yes, calling `NextIteration` without appending
any questions leaves the form with `askingMore = false` and
`done = false`, although the round budget is not exhausted
(`iteration = 1 < MaxIterations - 1 = 2`): the form does not proceed to
the continuation prompt, and no completion check runs. -/
theorem next_iteration_no_transition_cex :
    (run (NewIterativeForm "t" ⟨3, "p", "q"⟩)
        [.addQuestions [qA], .key "x", .key "enter", .key "yes",
         .key "enter", .nextIteration]).askingMore = false ∧
    (run (NewIterativeForm "t" ⟨3, "p", "q"⟩)
        [.addQuestions [qA], .key "x", .key "enter", .key "yes",
         .key "enter", .nextIteration]).done = false ∧
    (run (NewIterativeForm "t" ⟨3, "p", "q"⟩)
        [.addQuestions [qA], .key "x", .key "enter", .key "yes",
         .key "enter", .nextIteration]).iteration <
      (run (NewIterativeForm "t" ⟨3, "p", "q"⟩)
        [.addQuestions [qA], .key "x", .key "enter", .key "yes",
         .key "enter", .nextIteration]).config.MaxIterations - 1 := by
  decide

/-- Helper: the per-iteration filter over an enumerated question list is
empty when no question carries the given iteration index. -/
theorem filterMap_enumFrom_nil (rs : List String) (it : Int) :
    ∀ (n : Nat) (qs : List IterativeQuestion),
      (∀ q ∈ qs, q.Iteration ≠ it) →
      (List.enumFrom n qs).filterMap
        (fun p => if p.2.Iteration = it then rs.get? p.1 else none) = [] := by
  intro n qs
  induction qs generalizing n with
  | nil => intro _; rfl
  | cons q qs ih =>
      intro h
      simp only [List.enumFrom, List.filterMap_cons]
      rw [if_neg (h q (by simp))]
      exact ih (n + 1) fun q hq => h q (by simp [hq])

/-- Helper: a round index carried by no question has an empty response
subset. -/
theorem getResponsesForIteration_eq_nil (m : IterativeFormModel) (it : Int)
    (h : ∀ q ∈ m.questions, q.Iteration ≠ it) :
    GetResponsesForIteration m it = [] := by
  unfold GetResponsesForIteration
  exact filterMap_enumFrom_nil m.responses it 0 m.questions h

/-- C5 amended: calling `NextIteration` without appending questions for the
new round performs no completion check at all: it leaves the form with
`askingMore = false` and `done = false` (idle, waiting for input)
regardless of the round budget, keeps the response log, and the new round
has an empty per-round response subset; the continuation/completion check
only runs inside `handleEnter` on a later enter submission. -/
theorem next_iteration_idle (m : IterativeFormModel)
    (h : ∀ q ∈ m.questions, q.Iteration ≠ m.iteration + 1) :
    (NextIteration m).askingMore = false ∧
    (NextIteration m).done = false ∧
    (NextIteration m).responses = m.responses ∧
    GetResponsesForIteration (NextIteration m) (m.iteration + 1) = [] := by
  refine ⟨rfl, rfl, rfl, ?_⟩
  exact getResponsesForIteration_eq_nil (NextIteration m) (m.iteration + 1) h

/-- Witness for C5 amended at a concrete budget-3 form whose single round-0
question was answered and continued with yes. -/
theorem next_iteration_idle_witness :
    (NextIteration (run (NewIterativeForm "t" ⟨3, "p", "q"⟩)
        [.addQuestions [qA], .key "x", .key "enter", .key "yes",
         .key "enter"])).askingMore = false ∧
    (NextIteration (run (NewIterativeForm "t" ⟨3, "p", "q"⟩)
        [.addQuestions [qA], .key "x", .key "enter", .key "yes",
         .key "enter"])).done = false ∧
    (NextIteration (run (NewIterativeForm "t" ⟨3, "p", "q"⟩)
        [.addQuestions [qA], .key "x", .key "enter", .key "yes",
         .key "enter"])).responses =
      (run (NewIterativeForm "t" ⟨3, "p", "q"⟩)
        [.addQuestions [qA], .key "x", .key "enter", .key "yes",
         .key "enter"]).responses ∧
    GetResponsesForIteration (NextIteration (run
        (NewIterativeForm "t" ⟨3, "p", "q"⟩)
        [.addQuestions [qA], .key "x", .key "enter", .key "yes",
         .key "enter"]))
      ((run (NewIterativeForm "t" ⟨3, "p", "q"⟩)
        [.addQuestions [qA], .key "x", .key "enter", .key "yes",
         .key "enter"]).iteration + 1) = [] :=
  next_iteration_idle
    (run (NewIterativeForm "t" ⟨3, "p", "q"⟩)
      [.addQuestions [qA], .key "x", .key "enter", .key "yes",
       .key "enter"]) (by decide)

/-- Inductive invariant of the form: the cursor always equals the number
of recorded responses, and the wants-more flag is only ever set together
with the completion flag. -/
def Inv (m : IterativeFormModel) : Prop :=
  m.currentIdx = m.responses.length ∧ (m.needsMore = true → m.done = true)

/-- Every single step preserves the invariant `Inv`. -/
theorem inv_step (m : IterativeFormModel) (e : Event) (h : Inv m) :
    Inv (step m e) := by
  obtain ⟨h1, h2⟩ := h
  cases e with
  | addQuestions qs => exact ⟨h1, h2⟩
  | nextIteration => exact ⟨h1, fun h3 => Bool.noConfusion h3⟩
  | key s =>
      simp only [step, Update, handleEnter]
      split
      · exact ⟨h1, fun _ => rfl⟩
      · split
        · split
          · split
            · exact ⟨h1, fun _ => rfl⟩
            · split
              · exact ⟨h1, fun _ => rfl⟩
              · exact ⟨h1, h2⟩
          · split
            · exact ⟨h1, h2⟩
            · split
              · split
                · exact ⟨by simp [h1], h2⟩
                · exact ⟨by simp [h1], fun _ => rfl⟩
              · exact ⟨by simp [h1], h2⟩
        · split
          · split
            · exact ⟨h1, h2⟩
            · exact ⟨h1, h2⟩
          · exact ⟨h1, h2⟩

/-- The invariant `Inv` holds after any event sequence that starts from a
state satisfying it. -/
theorem inv_run (es : List Event) :
    ∀ m : IterativeFormModel, Inv m → Inv (run m es) := by
  induction es with
  | nil => intro m h; exact h
  | cons e es ih => intro m h; exact ih (step m e) (inv_step m e h)

/-- C9: in every state reachable from a newly constructed form by any
sequence of key events, `AddQuestions` calls and `NextIteration` calls,
the question cursor equals the length of the response log. -/
theorem cursor_eq_responses_length (title : String)
    (config : IterationConfig) (events : List Event) :
    (run (NewIterativeForm title config) events).currentIdx =
      (run (NewIterativeForm title config) events).responses.length :=
  (inv_run events (NewIterativeForm title config)
    ⟨rfl, fun h => Bool.noConfusion h⟩).1

/-- C3 amended: a cancel key (ctrl+c or esc) received in any reachable
non-terminal state immediately makes the form terminal with wants-more
false (`IsDone` true, `NeedsMoreInfo` false) and preserves the response
log; through the query operations this outcome is distinct from soft
completion (`NeedsMoreInfo` true) but coincides with normal hard
completion, so the observable classification is two-way, not three-way. -/
theorem cancel_terminal (title : String) (config : IterationConfig)
    (events : List Event) (s : String)
    (hs : s = "ctrl+c" ∨ s = "esc")
    (hd : (run (NewIterativeForm title config) events).done = false) :
    (Update (run (NewIterativeForm title config) events) s).done = true ∧
    (Update (run (NewIterativeForm title config) events) s).needsMore =
      false ∧
    IsDone (Update (run (NewIterativeForm title config) events) s) = true ∧
    NeedsMoreInfo (Update (run (NewIterativeForm title config) events) s) =
      false ∧
    (Update (run (NewIterativeForm title config) events) s).responses =
      (run (NewIterativeForm title config) events).responses := by
  have hinv := inv_run events (NewIterativeForm title config)
    ⟨rfl, fun h => Bool.noConfusion h⟩
  have hnm : (run (NewIterativeForm title config) events).needsMore =
      false := by
    cases hq : (run (NewIterativeForm title config) events).needsMore
    · rfl
    · rw [hinv.2 hq] at hd; exact Bool.noConfusion hd
  have hu : Update (run (NewIterativeForm title config) events) s =
      { run (NewIterativeForm title config) events with done := true } := by
    unfold Update
    rw [if_pos hs]
  rw [hu]
  exact ⟨rfl, hnm, by simp [IsDone, hnm], by simp [NeedsMoreInfo, hnm], rfl⟩

/-- Witness for C3 amended: Esc pressed mid-question on a reachable
non-terminal state. -/
theorem cancel_terminal_witness :
    (Update (run (NewIterativeForm "t" ⟨2, "p", "q"⟩)
        [.addQuestions [qA], .key "x"]) "esc").done = true ∧
    (Update (run (NewIterativeForm "t" ⟨2, "p", "q"⟩)
        [.addQuestions [qA], .key "x"]) "esc").needsMore = false ∧
    IsDone (Update (run (NewIterativeForm "t" ⟨2, "p", "q"⟩)
        [.addQuestions [qA], .key "x"]) "esc") = true ∧
    NeedsMoreInfo (Update (run (NewIterativeForm "t" ⟨2, "p", "q"⟩)
        [.addQuestions [qA], .key "x"]) "esc") = false ∧
    (Update (run (NewIterativeForm "t" ⟨2, "p", "q"⟩)
        [.addQuestions [qA], .key "x"]) "esc").responses =
      (run (NewIterativeForm "t" ⟨2, "p", "q"⟩)
        [.addQuestions [qA], .key "x"]).responses :=
  cancel_terminal "t" ⟨2, "p", "q"⟩ [.addQuestions [qA], .key "x"] "esc"
    (Or.inr rfl) (by decide)

/-- Guard on events: pressing enter is only allowed while the continuation
prompt is up, while the buffer trims to empty, or while a question is
pending (`currentIdx < len(questions)`); every other event is always
allowed.  This is exactly the discipline the surrounding render loop
enforces, since the view only solicits input in those situations. -/
def eventGuard (m : IterativeFormModel) : Event → Bool
  | .key s =>
      (s != "enter") || m.askingMore || (trimSpace m.input == "") ||
        decide (m.currentIdx < m.questions.length)
  | _ => true

/-- A trace is guarded when every event obeys `eventGuard` in the state it
is delivered in. -/
def guardedTrace : IterativeFormModel → List Event → Bool
  | _, [] => true
  | m, e :: es => eventGuard m e && guardedTrace (step m e) es

/-- Stronger invariant for the guarded system: the response log never
outgrows the question list and the cursor tracks the response count. -/
def Inv2 (m : IterativeFormModel) : Prop :=
  m.responses.length ≤ m.questions.length ∧
  m.currentIdx = m.responses.length

/-- A guarded step preserves `Inv2`. -/
theorem inv2_step (m : IterativeFormModel) (e : Event)
    (hg : eventGuard m e = true) (h : Inv2 m) : Inv2 (step m e) := by
  obtain ⟨hA, hB⟩ := h
  cases e with
  | addQuestions qs =>
      refine ⟨?_, hB⟩
      have : (m.questions ++ qs).length = m.questions.length + qs.length :=
        List.length_append _ _
      show m.responses.length ≤ (m.questions ++ qs).length
      omega
  | nextIteration => exact ⟨hA, hB⟩
  | key s =>
      simp only [step, Update, handleEnter]
      split
      · exact ⟨hA, hB⟩
      · split
        · rename_i hc he
          subst he
          split
          · split
            · exact ⟨hA, hB⟩
            · split
              · exact ⟨hA, hB⟩
              · exact ⟨hA, hB⟩
          · split
            · exact ⟨hA, hB⟩
            · rename_i hask htrim
              have hask2 : m.askingMore = false := by
                cases hq : m.askingMore
                · rfl
                · exact absurd hq hask
              have hlt : m.currentIdx < m.questions.length := by
                simp [eventGuard, hask2, htrim] at hg
                exact hg
              split
              · split
                · exact ⟨by simp; omega, by simp; omega⟩
                · exact ⟨by simp; omega, by simp; omega⟩
              · exact ⟨by simp; omega, by simp; omega⟩
        · split
          · split
            · exact ⟨hA, hB⟩
            · exact ⟨hA, hB⟩
          · exact ⟨hA, hB⟩

/-- The invariant `Inv2` holds along every guarded trace. -/
theorem inv2_run (es : List Event) :
    ∀ m : IterativeFormModel, Inv2 m → guardedTrace m es = true →
      Inv2 (run m es) := by
  induction es with
  | nil => intro m h _; exact h
  | cons e es ih =>
      intro m h hg
      rw [guardedTrace, Bool.and_eq_true] at hg
      exact ih (step m e) (inv2_step m e hg.1 h) hg.2

/-- C2 amended: in every state reached from a newly constructed form by a
sequence of key events, `AddQuestions` calls and `NextIteration` calls in
which enter is only pressed while the continuation prompt is up, while the
buffer trims to empty, or while a question is pending, the response log is
no longer than the question list; an enter submission with a nonempty
buffer and no pending question breaks the bound. -/
theorem responses_le_questions_guarded (title : String)
    (config : IterationConfig) (events : List Event)
    (hg : guardedTrace (NewIterativeForm title config) events = true) :
    (run (NewIterativeForm title config) events).responses.length ≤
      (run (NewIterativeForm title config) events).questions.length :=
  (inv2_run events (NewIterativeForm title config)
    ⟨Nat.le_refl 0, rfl⟩ hg).1

/-- Witness for C2 amended on a full guarded two-question session ending
in the continuation answer. -/
theorem responses_le_questions_guarded_witness :
    (run (NewIterativeForm "t" ⟨2, "p", "q"⟩)
        [.addQuestions [qA, qB], .key "x", .key "enter", .key "y",
         .key "enter", .key "y", .key "enter"]).responses.length ≤
      (run (NewIterativeForm "t" ⟨2, "p", "q"⟩)
        [.addQuestions [qA, qB], .key "x", .key "enter", .key "y",
         .key "enter", .key "y", .key "enter"]).questions.length :=
  responses_le_questions_guarded "t" ⟨2, "p", "q"⟩
    [.addQuestions [qA, qB], .key "x", .key "enter", .key "y",
     .key "enter", .key "y", .key "enter"] (by decide)

/-- Helper: when every question belongs to rounds up to the current one,
the questions of earlier rounds and the questions of the current round
together exhaust the question list. -/
theorem count_partition (qs : List IterativeQuestion) (it : Int)
    (h : ∀ q ∈ qs, q.Iteration ≤ it) :
    countQuestionsBeforeIteration qs it + countQuestionsInIteration qs it =
      qs.length := by
  induction qs with
  | nil => rfl
  | cons q qs ih =>
      have hq := h q (by simp)
      have hrest : ∀ p ∈ qs, p.Iteration ≤ it := fun p hp => h p (by simp [hp])
      have hsum := ih hrest
      simp only [countQuestionsBeforeIteration, countQuestionsInIteration]
        at hsum ⊢
      rcases lt_or_eq_of_le hq with hlt | heq
      · have hne : ¬(q.Iteration = it) := ne_of_lt hlt
        simp [List.filter_cons, hlt, hne]
        omega
      · simp [List.filter_cons, heq, lt_self_iff_false]
        omega

/-- Helper: submitting one nonempty answer from the answering state stores
the trimmed answer, bumps the cursor and then runs the round-completion
check. -/
theorem handleEnter_submit (m : IterativeFormModel) (a : String)
    (hask : m.askingMore = false) (hta : trimSpace a ≠ "") :
    handleEnter { m with input := a } =
      (if m.currentIdx + 1 ≥ m.questions.length then
        if m.iteration < m.config.MaxIterations - 1 then
          { m with responses := m.responses ++ [trimSpace a]
                   err := none
                   input := ""
                   currentIdx := m.currentIdx + 1
                   askingMore := true }
        else
          { m with responses := m.responses ++ [trimSpace a]
                   err := none
                   input := ""
                   currentIdx := m.currentIdx + 1
                   done := true }
      else
        { m with responses := m.responses ++ [trimSpace a]
                 err := none
                 input := ""
                 currentIdx := m.currentIdx + 1 }) := by
  simp only [handleEnter, hask, Bool.false_eq_true, if_false, if_neg hta]

/-- Helper: feeding, from an answering state, exactly as many nonempty
answers as there are unanswered questions triggers the round-completion
check on the last one: the form moves to the continuation prompt when
`iteration < MaxIterations - 1`, and to done otherwise, in both cases
leaving the wants-more flag untouched. -/
theorem submitAnswers_round (answers : List String) :
    ∀ m : IterativeFormModel, m.askingMore = false → m.done = false →
      m.currentIdx + answers.length = m.questions.length →
      answers ≠ [] → (∀ a ∈ answers, trimSpace a ≠ "") →
      ((m.iteration < m.config.MaxIterations - 1 →
          (submitAnswers m answers).askingMore = true ∧
          (submitAnswers m answers).done = false ∧
          (submitAnswers m answers).needsMore = m.needsMore) ∧
       (¬ m.iteration < m.config.MaxIterations - 1 →
          (submitAnswers m answers).done = true ∧
          (submitAnswers m answers).askingMore = false ∧
          (submitAnswers m answers).needsMore = m.needsMore)) := by
  induction answers with
  | nil => intro m _ _ _ hnz _; exact absurd rfl hnz
  | cons a as ih =>
      intro m hask hdone hcnt _ hne
      have hta : trimSpace a ≠ "" := hne a (by simp)
      rw [submitAnswers, handleEnter_submit m a hask hta]
      by_cases has : as = []
      · subst has
        have hge : m.currentIdx + 1 ≥ m.questions.length := by
          simp only [List.length_cons, List.length_nil] at hcnt
          omega
        rw [if_pos hge]
        by_cases hit : m.iteration < m.config.MaxIterations - 1
        · rw [if_pos hit]
          exact ⟨fun _ => ⟨rfl, hdone, rfl⟩, fun hc => absurd hit hc⟩
        · rw [if_neg hit]
          exact ⟨fun hc => absurd hc hit, fun _ => ⟨rfl, hask, rfl⟩⟩
      · have hpos : 0 < as.length := List.length_pos.2 has
        have hlt : ¬ m.currentIdx + 1 ≥ m.questions.length := by
          simp only [List.length_cons] at hcnt
          omega
        rw [if_neg hlt]
        have hcnt2 : m.currentIdx + 1 + as.length = m.questions.length := by
          simp only [List.length_cons] at hcnt
          omega
        exact ih
          { m with responses := m.responses ++ [trimSpace a]
                   err := none
                   input := ""
                   currentIdx := m.currentIdx + 1 }
          hask hdone hcnt2 has fun b hb => hne b (by simp [hb])

/-- C1: from an answering state positioned at the start of the current
round, with the question list holding no later rounds, submitting as many
nonempty answers as the current round has questions moves the form to the
continuation prompt when the round index is strictly below
`MaxIterations - 1`, and to the completed state with wants-more false
(hard terminal) when the round index equals `MaxIterations - 1`; neither
check is skipped. -/
theorem round_completion (m : IterativeFormModel) (answers : List String)
    (hask : m.askingMore = false) (hdone : m.done = false)
    (hnm : m.needsMore = false)
    (hcur : m.currentIdx =
      countQuestionsBeforeIteration m.questions m.iteration)
    (hall : ∀ q ∈ m.questions, q.Iteration ≤ m.iteration)
    (hcnt : answers.length =
      countQuestionsInIteration m.questions m.iteration)
    (hnz : answers ≠ [])
    (hne : ∀ a ∈ answers, trimSpace a ≠ "") :
    (m.iteration < m.config.MaxIterations - 1 →
      (submitAnswers m answers).askingMore = true ∧
      (submitAnswers m answers).done = false) ∧
    (m.iteration = m.config.MaxIterations - 1 →
      (submitAnswers m answers).done = true ∧
      (submitAnswers m answers).askingMore = false ∧
      (submitAnswers m answers).needsMore = false) := by
  have hsum := count_partition m.questions m.iteration hall
  have hc : m.currentIdx + answers.length = m.questions.length := by omega
  have hmain := submitAnswers_round answers m hask hdone hc hnz hne
  constructor
  · intro hlt
    exact ⟨(hmain.1 hlt).1, (hmain.1 hlt).2.1⟩
  · intro heq
    have hnlt : ¬ m.iteration < m.config.MaxIterations - 1 := by
      rw [heq]; exact lt_irrefl _
    obtain ⟨d2, a2, n2⟩ := hmain.2 hnlt
    exact ⟨d2, a2, by rw [n2, hnm]⟩

/-- Witness for C1: a budget-2 form with a two-question round 0, answered
with `"x"` then `"y"`, reaches the continuation prompt. -/
theorem round_completion_witness :
    (submitAnswers
        (AddQuestions (NewIterativeForm "t" ⟨2, "p", "q"⟩) [qA, qB])
        ["x", "y"]).askingMore = true ∧
    (submitAnswers
        (AddQuestions (NewIterativeForm "t" ⟨2, "p", "q"⟩) [qA, qB])
        ["x", "y"]).done = false :=
  (round_completion
    (AddQuestions (NewIterativeForm "t" ⟨2, "p", "q"⟩) [qA, qB])
    ["x", "y"] rfl rfl rfl (by decide) (by decide) (by decide)
    (by decide) (by decide)).1 (by decide)

end Tui
